import Mathlib

/-!
# Verification of the DeepViewAgg multimodal UNet assembler

Shallow embedding of the configuration-driven UNet assembler of this
repository, centred on:

* `torch_points3d/models/base_architectures/unet.py`
  (`BaseFactory`, `ModalityFactory`, `UnetBasedModel`,
  `UnetSkipConnectionBlock`, `UnwrappedUnetBasedModel`),
* `torch_points3d/modules/multimodal/modules.py` (`MultimodalBlockDown`),
* `src/modules/KPConv/blocks.py` (operator exposure of the blocks).

Conventions of the embedding:

* Tensors are opaque payloads (`Tensor := List Int`); the numeric content of
  convolutions is out of scope, so every neural module is represented by the
  observable interface the assembler interacts with: its forward behaviour as
  an arbitrary function, and its exposed `sampler` / `neighbour_finder` /
  `upsample_op` attributes.
* Python data objects (`torch_geometric.data.Data`) are modelled as ordered
  attribute maps, matching the insertion-ordered attribute dictionary that
  `data.keys`, `getattr` and `setattr` operate on.
* Fallible Python code is modelled in `Except PyErr`; the error cases mirror
  the exception class that the interpreter would raise at that program point
  (`assert` → `assertionError`, calling `None` → `typeError`, reading a
  missing attribute → `attributeError`, `list.pop()` / `l[-1]` on an empty
  list → `indexError`, `raise NotImplementedError` → `notImplementedError`).
* The `precomputed_down` / `precomputed_up` arguments of `forward` are passed
  unchanged to every module; they are absorbed into the opaque per-module
  forward functions.
-/

/-- Python exception classes that the embedded code can raise. -/
inductive PyErr where
  | notImplementedError
  | assertionError
  | typeError
  | attributeError
  | valueError
  | indexError
  deriving DecidableEq, Repr

/-- Opaque tensor payload; equality is bit-identity. -/
abbrev Tensor := List Int

/-- A `torch_geometric` `Data`-like object: an insertion-ordered attribute
dictionary from attribute names to tensors. -/
structure PData where
  attrs : List (String × Tensor)
  deriving DecidableEq, Repr

/-- Update an association list in place (Python `setattr` / dict update
semantics: an existing key keeps its position and gets the new value, a new
key is appended at the end). -/
def assocSet (l : List (String × Tensor)) (k : String) (v : Tensor) :
    List (String × Tensor) :=
  match l with
  | [] => [(k, v)]
  | (k', v') :: rest =>
      if k' = k then (k, v) :: rest else (k', v') :: assocSet rest k v

/-- `data.keys`: the attribute names, in insertion order. -/
def PData.keys (d : PData) : List String := d.attrs.map Prod.fst

/-- `getattr(data, k)` as an `Option` (`none` when the attribute is absent). -/
def PData.getattrOpt (d : PData) (k : String) : Option Tensor :=
  (d.attrs.find? (fun kv => kv.1 = k)).map Prod.snd

/-- `setattr(data, k, v)`. -/
def PData.setattr (d : PData) (k : String) (v : Tensor) : PData :=
  ⟨assocSet d.attrs k v⟩

/-- `str.upper()` on one character (kernel-computable implementation). -/
def pyCharUpper (c : Char) : Char :=
  if 97 ≤ c.toNat ∧ c.toNat ≤ 122 then Char.ofNat (c.toNat - 32) else c

/-- `str.upper()` (kernel-computable implementation over the char list). -/
def pyUpper (s : String) : String := ⟨s.data.map pyCharUpper⟩

/-- `str.startswith(tok)` (kernel-computable implementation). -/
def pyStartsWith (s tok : String) : Bool := tok.data.isPrefixOf s.data

/-- Value of `getattr(module, "sampler", None)` (and likewise for
`neighbour_finder` and `upsample_op`): the attribute may be absent or `None`
(both collapse to `.none` under the `getattr` default), a single operator
object, or a list of operators possibly containing `None` entries (e.g.
`KPDualBlock.sampler` in `src/modules/KPConv/blocks.py` returns
`[b.sampler for b in self.blocks]` where each `SimpleBlock.sampler` can be
`None`).  Operator objects are opaque references, modelled as `Nat` tokens. -/
inductive OpAttr where
  | none
  | one (o : Nat)
  | many (l : List (Option Nat))
  deriving DecidableEq, Repr

/-- `is_list` from `torch_points3d.utils.config`, applied to an operator
attribute value: true exactly for list values. -/
def OpAttr.isList : OpAttr → Bool
  | .many _ => true
  | _ => false

/-- The observable interface of a constructed neural module, as the assembler
consumes it.  `fwdD` is its behaviour when called with a single data argument
(down / inner module), `fwdU` its behaviour when called with a
`(data, skip)` pair (up module); both are opaque.  `isIdentityCls` records
whether the object is an instance of the `Identity` class (the
`isinstance(self.inner_modules[0], Identity)` test in `forward`). -/
structure ModuleSpec where
  isIdentityCls : Bool := false
  fwdD : PData → PData := id
  fwdU : PData → PData → PData := fun d _ => d
  sampler : OpAttr := .none
  neighbourFinder : OpAttr := .none
  upsampleOp : OpAttr := .none

/-- The `Identity()` instance appended to `inner_modules` when no innermost
module is configured. -/
def identityModule : ModuleSpec := { isIdentityCls := true }

/-- A recorded `upsample_op` registry entry: the appended attribute value is
either a single operator or a (non-empty) list of operators. -/
inductive UpsVal where
  | op (o : Nat)
  | ops (l : List (Option Nat))
  deriving DecidableEq, Repr

/-- `self._spatial_ops_dict`: the three ordered operator registries. -/
structure SpatialOps where
  sampler : List (Option Nat) := []
  neighbourFinder : List (Option Nat) := []
  upsampleOp : List UpsVal := []
  deriving DecidableEq, Repr

/-- `UnwrappedUnetBasedModel._save_sampling_and_search`: for each of the
`sampler` and `neighbour_finder` attributes of a down module, extend the
registry with the list's elements if the attribute is a list, otherwise
append the (possibly `None`) value as a single entry. -/
def saveSamplingAndSearch (s : SpatialOps) (m : ModuleSpec) : SpatialOps :=
  let s1 :=
    match m.sampler with
    | .many l => { s with sampler := s.sampler ++ l }
    | .one o => { s with sampler := s.sampler ++ [some o] }
    | .none => { s with sampler := s.sampler ++ [Option.none] }
  match m.neighbourFinder with
  | .many l => { s1 with neighbourFinder := s1.neighbourFinder ++ l }
  | .one o => { s1 with neighbourFinder := s1.neighbourFinder ++ [some o] }
  | .none => { s1 with neighbourFinder := s1.neighbourFinder ++ [Option.none] }

/-- `UnwrappedUnetBasedModel._save_upsample`: append the `upsample_op`
attribute of an up module as one registry entry, but only when it is truthy
(`if upsample_op:` — `None` and the empty list are falsy, so nothing is
recorded for them; there is no implicit default). -/
def saveUpsample (s : SpatialOps) (m : ModuleSpec) : SpatialOps :=
  match m.upsampleOp with
  | .none => s
  | .one o => { s with upsampleOp := s.upsampleOp ++ [.op o] }
  | .many [] => s
  | .many l => { s with upsampleOp := s.upsampleOp ++ [.ops l] }

/-! ## Configuration model (compact format of `UnwrappedUnetBasedModel`) -/

/-- A compact per-flow configuration section (`up_conv`, a modality
`down_conv`, `atomic_pooling`, `view_pooling`, `fusion`, or an `innermost`
entry): the `module_name` to resolve, with the remaining per-index
constructor arguments left opaque (they are forwarded verbatim by
`fetch_arguments_from_list` into the resolved constructor). -/
structure ConvSection where
  moduleName : String
  deriving DecidableEq, Repr

/-- The `branching_index` entry of a modality sub-config: an integer or a
list of integers. -/
inductive BranchIdx where
  | one (i : Nat)
  | list (l : List Nat)
  deriving DecidableEq, Repr

/-- A modality sub-config nested under `down_conv.<modality>`. -/
structure ModalityOpt where
  downConv : ConvSection
  atomicPooling : ConvSection
  viewPooling : ConvSection
  fusion : ConvSection
  branchingIndex : BranchIdx
  /-- `up_conv` sub-key: its presence (non-`None`) makes the modality branch
  a full modality-specific UNet. -/
  upConv : Option ConvSection := none
  deriving DecidableEq, Repr

/-- The compact `down_conv` section. `downConvNN` is the length of the
`down_conv_nn` list when the key is present (`none` models a config without
the `down_conv_nn` key). -/
structure DownConvOpt where
  moduleName : String
  downConvNN : Option Nat
  saveSamplingId : Bool
  modalities : List (String × ModalityOpt)
  deriving DecidableEq, Repr

/-- The `down_conv` entry of the options: either the per-layer list format
(a `ListConfig` / Python list of layer sections) or the compact format. -/
inductive DownConvCfg where
  | listForm (layers : List ConvSection)
  | compact (o : DownConvOpt)
  deriving DecidableEq, Repr

/-- The compact `up_conv` section (`module_name` plus the length of
`up_conv_nn`). -/
structure UpConvOpt where
  moduleName : String
  upConvNN : Nat
  deriving DecidableEq, Repr

/-- The optional `innermost` section: a single entry or a list of entries
(`_create_inner_modules` accepts both). -/
inductive InnerCfg where
  | single (sec : ConvSection)
  | multi (secs : List ConvSection)
  deriving DecidableEq, Repr

/-- The top-level model options consumed by the assemblers. -/
structure Opt where
  downConv : DownConvCfg
  upConv : Option UpConvOpt
  innermost : Option InnerCfg
  deriving DecidableEq, Repr

/-- Modelled from the spec: `MODALITY_NAMES`, the fixed list of supported
modality names, lives in `torch_points3d/core/multimodal/data.py`
(respectively `torch_points3d/datasets/multimodal/data.py` for
`modules.py`), which is not part of the sources; the spec names "image" as
the modality in use. -/
def MODALITY_NAMES : List String := ["image"]

/-- Modelled from the spec: `fetch_modalities` from
`torch_points3d.utils.config` is not part of the sources; per §4.5 it
parses the configuration to "detect which modality names are present",
returning the supported modality names appearing as keys of the `down_conv`
section (a list-format `down_conv` has no modality keys). -/
def fetchModalities (cfg : DownConvCfg) (names : List String) : List String :=
  match cfg with
  | .listForm _ => []
  | .compact o => names.filter (fun n => (o.modalities.map Prod.fst).contains n)

/-! ## Module library environments and factories -/

/-- A module constructor as the assembler uses it: `fetch_arguments_from_list`
extracts the per-index arguments and `module(**args)` builds the module.  The
argument dictionary is opaque, so a constructor is a function of the layer
`index` alone. -/
abbrev Ctor := Nat → ModuleSpec

/-- `modules_lib`: `getattr(modules_lib, name, None)` resolves a class name
to a constructor, or to `None` for an unknown name. -/
structure ModulesLib where
  get : String → Option Ctor

/-- The libraries a `ModalityFactory` imports for one modality
(`modules.multimodal.modalities.<modality>`, `modules.multimodal.pooling`,
`modules.multimodal.fusion`); these packages are not part of the sources, so
their contents are opaque name-to-constructor tables.  `unet` is the value of
`getattr(modality_lib, 'UNet', None)`; the real `UNet` constructor receives
the whole modality sub-config rather than per-index arguments, which is
immaterial here because constructors are opaque. -/
structure ModalityLibs where
  modalityLib : String → Option Ctor
  poolingLib : String → Option Ctor
  fusionLib : String → Option Ctor
  unet : Option Ctor

/-- `BaseFactory` (`unet.py` lines 21-31): resolves the main-modality down
and up module names against `modules_lib`.  `moduleNameUp` is `None` when
the config has no `up_conv` section; the source never calls
`get_module("UP")` in that case (`if up_conv_cls_name:` guards the up-module
loop). -/
structure BaseFactory where
  moduleNameDown : String
  moduleNameUp : Option String
  modulesLib : ModulesLib

/-- `BaseFactory.get_module`. -/
def BaseFactory.getModule (f : BaseFactory) (flow : String) : Option Ctor :=
  if pyUpper flow = "UP" then
    match f.moduleNameUp with
    | some n => f.modulesLib.get n
    | none => none
  else
    f.modulesLib.get f.moduleNameDown

/-- `ModalityFactory` (`unet.py` lines 42-87): holds the four resolved names
of a modality sub-config plus the imported libraries. -/
structure ModalityFactory where
  modality : String
  moduleName : String
  atomicPoolingName : String
  viewPoolingName : String
  fusionName : String
  libs : ModalityLibs

/-- `ModalityFactory.get_module`: dispatch on the flow tag; every branch is a
`getattr(lib, name, None)` lookup returning `None` for an unknown name. -/
def ModalityFactory.getModule (f : ModalityFactory) (flow : String) :
    Option Ctor :=
  if pyUpper flow = "ATOMIC" then f.libs.poolingLib f.atomicPoolingName
  else if pyUpper flow = "VIEW" then f.libs.poolingLib f.viewPoolingName
  else if pyUpper flow = "FUSION" then f.libs.fusionLib f.fusionName
  else if pyUpper flow = "UNET" then f.libs.unet
  else f.libs.modalityLib f.moduleName

/-- An entry of `self._module_factories`. -/
inductive Factory where
  | base (f : BaseFactory)
  | modality (f : ModalityFactory)

/-- Uniform `get_module` over the factory dictionary entries. -/
def Factory.getModule : Factory → String → Option Ctor
  | .base f, flow => f.getModule flow
  | .modality f, flow => f.getModule flow

/-- `UnwrappedUnetBasedModel._build_module` (`unet.py` lines 561-576):
resolve the module class through the factory for the given flow, then call
it on the fetched arguments.  Resolving an unknown name yields `None`, and
`module(**args)` then raises `TypeError` (`'NoneType' object is not
callable`) right there, at build time. -/
def buildModule (fac : Factory) (index : Nat) (flow : String) :
    Except PyErr ModuleSpec :=
  match fac.getModule flow with
  | none => .error .typeError
  | some c => .ok (c index)

/-! ## `MultimodalBlockDown` (`torch_points3d/modules/multimodal/modules.py`) -/

/-- Modelled from the spec: `UnimodalBranch` is imported by `unet.py` from
`torch_points3d.modules.multimodal.modules` but is missing from that source
file; per §4.3 it is the Modality Branch wrapping the modality convolution
(or sub-network), the atomic pooling, the view pooling and the fusion
operator as one module. -/
structure UnimodalBranch where
  conv : ModuleSpec
  atomicPool : ModuleSpec
  viewPool : ModuleSpec
  fusion : ModuleSpec

/-- A value passed as a modality keyword argument to
`MultimodalBlockDown.__init__`: either a dictionary holding named sub-modules
(what `_init_from_kwargs` validates, via its `kwargs[m].keys()` calls) or a
plain module object (what `UnwrappedUnetBasedModel._init_from_compact_format`
actually passes: an `nn.Identity()` placeholder or a built `UnimodalBranch`).
A module object has no `.keys()` method, so calling `.keys()` on it raises
`AttributeError`. -/
inductive PyBranchVal where
  | dict (d : List (String × ModuleSpec))
  | moduleObj (m : ModuleSpec)
  | branchObj (b : UnimodalBranch)

/-- `kwargs[m].keys()`. -/
def PyBranchVal.pyKeys : PyBranchVal → Except PyErr (List String)
  | .dict d => .ok (d.map Prod.fst)
  | .moduleObj _ => .error .attributeError
  | .branchObj _ => .error .attributeError

/-- The dictionary payload of a branch value (only reached for `.dict`
values, because `pyKeys` has errored on module objects beforehand). -/
def PyBranchVal.asDict : PyBranchVal → List (String × ModuleSpec)
  | .dict d => d
  | .moduleObj _ => []
  | .branchObj _ => []

/-- A constructed `MultimodalBlockDown` object.  `sampler` is the attribute
set at the end of `__init__`:
`[getattr(self.down_block, "sampler", None), getattr(self.down_block,
"sampler", None)]` — the down block's sampler attribute twice (the
`conv_block`'s operators are not referenced, and no `neighbour_finder`
attribute is ever set on the object). -/
structure MMBlock where
  downBlock : ModuleSpec
  convBlock : ModuleSpec
  modalityBlocks : List (String × List (String × ModuleSpec))
  sampler : List OpAttr

/-- `getattr(block, "neighbour_finder", None)`: the class never sets a
`neighbour_finder` attribute, so the lookup always yields the default. -/
def MMBlock.neighbourFinderAttr (_ : MMBlock) : OpAttr := .none

/-- `MultimodalBlockDown._init_from_kwargs`: for each supported modality name
present in the kwargs, require the value to expose `'conv'` and `'merge'`
keys (raising `ValueError` otherwise) and store it in `modality_blocks`.
Reading `.keys()` off a non-dict value raises `AttributeError` first. -/
def initFromKwargs (kwargs : List (String × PyBranchVal)) :
    Except PyErr (List (String × List (String × ModuleSpec))) :=
  MODALITY_NAMES.foldlM
    (fun acc m =>
      match kwargs.find? (fun kv => kv.1 = m) with
      | none => .ok acc
      | some (_, v) => do
          let keys ← v.pyKeys
          if !keys.contains "conv" then .error .valueError
          else if !keys.contains "merge" then .error .valueError
          else .ok (acc ++ [(m, v.asDict)]))
    []

/-- `MultimodalBlockDown.__init__` (`modules.py` lines 18-37): store the two
main-stream blocks, validate and store the per-modality kwargs, then set the
`sampler` attribute from the down block (twice). -/
def MMBlock.init (downBlock convBlock : ModuleSpec)
    (kwargs : List (String × PyBranchVal)) : Except PyErr MMBlock := do
  let mb ← initFromKwargs kwargs
  .ok { downBlock := downBlock, convBlock := convBlock,
        modalityBlocks := mb,
        sampler := [downBlock.sampler, downBlock.sampler] }

/-- One modality sub-representation of an `MMData` joint sample: its own data
object plus an opaque point-to-observation mapping object. -/
structure ModPayload where
  data : PData
  mappings : Nat
  deriving DecidableEq, Repr

/-- The joint multimodal sample (`MMData`): the main-stream data object plus
the named modality sub-representations. -/
structure MMDataV where
  data : PData
  modalities : List (String × ModPayload)
  deriving DecidableEq, Repr

/-- Replace the data object of modality `m` in the joint sample. -/
def MMDataV.setModalityData (mm : MMDataV) (m : String) (d : PData) : MMDataV :=
  { mm with
    modalities := mm.modalities.map
      (fun kv => if kv.1 = m then (kv.1, { kv.2 with data := d }) else kv) }

/-- `MultimodalBlockDown.forward` (`modules.py` lines 57-86):
1. apply the main-stream down conv to the main data;
2. for each stored modality in order: apply its `'conv'` block to the
   modality data, then evaluate `self.merge_block_mod(...)` — an attribute
   that `__init__` never sets, so the first loop iteration raises
   `AttributeError` right after the modality conv (the validated `'merge'`
   module is never used);
3. apply the post-fusion main-stream conv and return the joint sample. -/
def MMBlock.forward (b : MMBlock) (mm : MMDataV) : Except PyErr MMDataV := do
  let mm0 := { mm with data := b.downBlock.fwdD mm.data }
  let mm1 ← b.modalityBlocks.foldlM
    (fun (acc : MMDataV) entry => do
      let (m, blocks) := entry
      let modData := ((acc.modalities.find? (fun kv => kv.1 = m)).map
        (fun kv => kv.2.data)).getD ⟨[]⟩
      let conv := ((blocks.find? (fun kv => kv.1 = "conv")).map
        Prod.snd).getD identityModule
      let acc1 := acc.setModalityData m (conv.fwdD modData)
      -- `self.merge_block_mod` is read here; the attribute does not exist
      -- on the object, so Python raises AttributeError.
      let _ := acc1
      (.error .attributeError : Except PyErr MMDataV))
    mm0
  .ok { mm1 with data := b.convBlock.fwdD mm1.data }

/-! ## `UnwrappedUnetBasedModel` (`unet.py` lines 334-614) -/

/-- An entry of `self.down_modules`: a plain main-stream convolution, or a
`MultimodalBlockDown` after the multimodal pairing step. -/
inductive DownMod where
  | conv (m : ModuleSpec)
  | mm (b : MMBlock)

/-- View a down module as a plain convolution (`none` for a multimodal
block, which cannot be invoked on a plain `Data` object). -/
def DownMod.asConv? : DownMod → Option ModuleSpec
  | .conv m => some m
  | .mm _ => none

/-- All down modules as plain convolutions, when none is a multimodal
block. -/
def allConvs? : List DownMod → Option (List ModuleSpec)
  | [] => some []
  | .conv m :: t => (allConvs? t).map (fun l => m :: l)
  | .mm _ :: _ => none

/-- The constructed `UnwrappedUnetBasedModel` state that `forward` and the
spatial-operator consumers read. -/
structure UUModel where
  /-- `self._modalities`, as computed by `fetch_modalities` at `__init__`. -/
  modalities : List String
  saveSamplingId : Bool
  innerModules : List ModuleSpec
  downModules : List DownMod
  upModules : List ModuleSpec
  spatialOps : SpatialOps

/-- Modelled from the spec: `BaseModel.is_multimodal` is not part of the
sources; a model is multimodal exactly when its configuration declared at
least one modality (§4.5: "detect which modality names are present"). -/
def UUModel.isMultimodal (m : UUModel) : Bool := !m.modalities.isEmpty

/-- The `for i in range(n)` build loops: build the `i`-th module for each
`i` in order, propagating the first build error. -/
def buildRange (n : Nat) (build : Nat → Except PyErr ModuleSpec) :
    Except PyErr (List ModuleSpec) :=
  match n with
  | 0 => .ok []
  | k + 1 =>
      match buildRange k build with
      | .error e => .error e
      | .ok xs =>
          match build k with
          | .error e => .error e
          | .ok x => .ok (xs ++ [x])

/-- Monadic map over `Except` (build each element in order, propagating the
first error), used for the sequential build loops. -/
def mapExcept (f : α → Except PyErr β) : List α → Except PyErr (List β)
  | [] => .ok []
  | a :: t =>
      match f a with
      | .error e => .error e
      | .ok b =>
          match mapExcept f t with
          | .error e => .error e
          | .ok bs => .ok (b :: bs)

/-- `UnwrappedUnetBasedModel._create_inner_modules`: resolve each configured
innermost `module_name` with `getattr(modules_lib, module_name)` — no
default, so an unknown name raises `AttributeError` — and call the class on
the innermost kwargs (opaque; the constructor is sampled at argument token
`0` since innermost entries carry no layer index). -/
def createInnerModules (cfg : InnerCfg) (lib : ModulesLib) :
    Except PyErr (List ModuleSpec) :=
  match cfg with
  | .single s =>
      match lib.get s.moduleName with
      | none => .error .attributeError
      | some c => .ok [c 0]
  | .multi secs =>
      mapExcept (fun s =>
        match lib.get s.moduleName with
        | none => .error .attributeError
        | some c => .ok (c 0)) secs

/-- `down_modules[::2]`: the elements at even positions. -/
def evens : List α → List α
  | [] => []
  | [a] => [a]
  | a :: _ :: rest => a :: evens rest

/-- `down_modules[1::2]`: the elements at odd positions. -/
def odds : List α → List α
  | [] => []
  | [_] => []
  | _ :: b :: rest => b :: odds rest

/-- `branches[idx][m] = v` (a Python list indexing assignment:
out-of-range `idx` raises `IndexError`; the per-layer dict update replaces
the modality's entry). -/
def setBranch (branches : List (List (String × PyBranchVal))) (idx : Nat)
    (m : String) (v : PyBranchVal) :
    Except PyErr (List (List (String × PyBranchVal))) :=
  if idx < branches.length then
    .ok (branches.set idx
      ((branches.getD idx []).map
        (fun kv => if kv.1 = m then (kv.1, v) else kv)))
  else
    .error .indexError

/-- The per-modality branch construction of `_init_from_compact_format`
(`unet.py` lines 452-487): normalise `branching_index` to a list, reject a
modality UNet with several branching indices, then for each branching index
build the convolution (or modality UNet), atomic pooling, view pooling and
fusion modules and slot the resulting `UnimodalBranch` into the branch table
at that index. -/
def buildBranchesForModality (modOpt : ModalityOpt) (fac : ModalityFactory)
    (branches : List (List (String × PyBranchVal))) :
    Except PyErr (List (List (String × PyBranchVal))) :=
  let bIdx :=
    match modOpt.branchingIndex with
    | .one i => [i]
    | .list l => l
  let isUnet := modOpt.upConv.isSome
  if isUnet && bIdx.length != 1 then .error .assertionError
  else
    bIdx.enum.foldlM
      (fun acc (p : Nat × Nat) =>
        let (i, idx) := p
        match
          (if isUnet then
            -- `unet_cls = factory.get_module('UNET'); conv = unet_cls(cfg)`:
            -- an unresolved UNet class is `None` and calling it raises
            -- `TypeError` (the real call passes the modality sub-config,
            -- opaque here).
            match fac.getModule "UNET" with
            | none => .error .typeError
            | some c => .ok (c 0)
          else buildModule (.modality fac) i "DOWN") with
        | .error e => .error e
        | .ok conv =>
          match buildModule (.modality fac) i "ATOMIC" with
          | .error e => .error e
          | .ok atomicPool =>
            match buildModule (.modality fac) i "VIEW" with
            | .error e => .error e
            | .ok viewPool =>
              match buildModule (.modality fac) i "FUSION" with
              | .error e => .error e
              | .ok fusion =>
                setBranch acc idx fac.modality
                  (.branchObj ⟨conv, atomicPool, viewPool, fusion⟩))
      branches

/-- The multimodal tail of `_init_from_compact_format` (`unet.py` lines
443-493): assert an even, positive number of built main-stream down convs,
build the branch table, then pair consecutive down convs with their branch
dict into `MultimodalBlockDown` blocks. -/
def buildMultimodalDowns (downs : List ModuleSpec)
    (modFacs : List (ModalityOpt × ModalityFactory))
    (modalities : List String) : Except PyErr (List DownMod) :=
  if downs.length % 2 != 0 || downs.length == 0 then .error .assertionError
  else
    let nLayers := downs.length / 2
    let branches0 : List (List (String × PyBranchVal)) :=
      List.replicate nLayers
        (modalities.map (fun m => (m, PyBranchVal.moduleObj identityModule)))
    match
      modFacs.foldlM
        (fun acc p => buildBranchesForModality p.1 p.2 acc) branches0 with
    | .error e => .error e
    | .ok branches =>
        mapExcept
          (fun t =>
            match MMBlock.init t.1 t.2.1
                (t.2.2.map (fun kv => (kv.1, kv.2))) with
            | .error e => .error e
            | .ok b => .ok (DownMod.mm b))
          ((evens downs).zip ((odds downs).zip branches))

/-- The main-modality `BaseFactory` built by `_init_from_compact_format`
(`up_conv_cls_name` is `None` when the config has no `up_conv` section). -/
def mainFactory (opt : Opt) (o : DownConvOpt) (lib : ModulesLib) :
    BaseFactory :=
  ⟨o.moduleName, opt.upConv.map (fun u => u.moduleName), lib⟩

/-- The `ModalityFactory` construction loop of `_init_from_compact_format`
(`unet.py` lines 413-422): each detected modality gets a factory holding the
four module names of its sub-config plus its imported libraries; the
sub-config is kept alongside for the later branch building.
`getattr(opt.down_conv, m)` on a missing key raises (the detected modality
names are keys of the config, so this cannot fire). -/
def buildModalityFactories (o : DownConvOpt) (modalities : List String)
    (env : String → ModalityLibs) :
    Except PyErr (List (ModalityOpt × ModalityFactory)) :=
  mapExcept (fun m =>
    (match o.modalities.find? (fun kv => kv.1 = m) with
     | none => .error .attributeError
     | some (_, mo) =>
         .ok (mo, ModalityFactory.mk m mo.downConv.moduleName
           mo.atomicPooling.moduleName mo.viewPooling.moduleName
           mo.fusion.moduleName (env m)) :
      Except PyErr (ModalityOpt × ModalityFactory))) modalities

/-- The inner-module step of `_init_from_compact_format` (`unet.py` lines
424-433): build the configured innermost modules, or a single `Identity()`
when no innermost section exists. -/
def buildInners (opt : Opt) (lib : ModulesLib) :
    Except PyErr (List ModuleSpec) :=
  match opt.innermost with
  | none => .ok [identityModule]
  | some cfg => createInnerModules cfg lib

/-- The main-stream down-conv loop of `_init_from_compact_format` (`unet.py`
lines 436-440). -/
def buildMainDowns (fac : BaseFactory) (n : Nat) :
    Except PyErr (List ModuleSpec) :=
  buildRange n (fun i => buildModule (.base fac) i "DOWN")

/-- The down-module list after the optional multimodal pairing. -/
def buildDownFinal (downs : List ModuleSpec)
    (modFacs : List (ModalityOpt × ModalityFactory))
    (modalities : List String) : Except PyErr (List DownMod) :=
  if modalities.isEmpty then .ok (downs.map DownMod.conv)
  else buildMultimodalDowns downs modFacs modalities

/-- The up-conv loop of `_init_from_compact_format` (`unet.py` lines
499-504): `if up_conv_cls_name:` — a `None` (no `up_conv` section) or empty
module name is falsy and no up module is built. -/
def buildUps (opt : Opt) (fac : BaseFactory) :
    Except PyErr (List ModuleSpec) :=
  match opt.upConv with
  | none => .ok []
  | some u =>
      if u.moduleName = "" then .ok []
      else buildRange u.upConvNN (fun i => buildModule (.base fac) i "UP")

/-- `UnwrappedUnetBasedModel._init_from_compact_format` (`unet.py` lines
397-508), for a compact config whose `down_conv_nn` has length `n` and whose
detected modalities are `modalities`:
factories, then inner modules, then the main-stream down convs (recording
their spatial operators as they are built), then the multimodal pairing when
modalities are present, then the up convs (recording their upsample
operators).  The trailing metric-loss/miner lookup touches no model
structure and is omitted. -/
def initFromCompact (opt : Opt) (o : DownConvOpt) (n : Nat)
    (modalities : List String) (lib : ModulesLib)
    (env : String → ModalityLibs) : Except PyErr UUModel :=
  match buildModalityFactories o modalities env with
  | .error e => .error e
  | .ok modFacs =>
    match buildInners opt lib with
    | .error e => .error e
    | .ok inners =>
      match buildMainDowns (mainFactory opt o lib) n with
      | .error e => .error e
      | .ok downs =>
        match buildDownFinal downs modFacs modalities with
        | .error e => .error e
        | .ok downFinal =>
          match buildUps opt (mainFactory opt o lib) with
          | .error e => .error e
          | .ok ups =>
            .ok { modalities := modalities,
                  saveSamplingId := o.saveSamplingId,
                  innerModules := inners,
                  downModules := downFinal,
                  upModules := ups,
                  spatialOps := ups.foldl saveUpsample
                    (downs.foldl saveSamplingAndSearch {}) }

/-- `UnwrappedUnetBasedModel.__init__` (`unet.py` lines 338-395): detect the
modalities present in `down_conv`, then reject any non-compact options
format (`is_list(opt.down_conv) or "down_conv_nn" not in opt.down_conv`)
with `NotImplementedError` before anything is built; otherwise run the
compact-format initialisation. -/
def unwrappedInit (opt : Opt) (lib : ModulesLib)
    (env : String → ModalityLibs) : Except PyErr UUModel :=
  let modalities := fetchModalities opt.downConv MODALITY_NAMES
  match opt.downConv with
  | .listForm _ => .error .notImplementedError
  | .compact o =>
      match o.downConvNN with
      | none => .error .notImplementedError
      | some n => initFromCompact opt o n modalities lib env

/-! ## `UnwrappedUnetBasedModel.forward` (`unet.py` lines 578-614) -/

/-- The down loop of `forward`:
`for i in range(len(down_modules) - 1): data = down(data); stack.append(data)`
followed by `data = down_modules[-1](data)`.  Returns the skip stack (all
intermediate outputs, in push order) and the output of the last down module
(which is not pushed). -/
def downLoop (convs : List ModuleSpec) (d : PData) : List PData × PData :=
  match convs with
  | [] => ([], d)
  | [f] => ([], f.fwdD d)
  | f :: g :: rest =>
      let d1 := f.fwdD d
      let (st, out) := downLoop (g :: rest) d1
      (d1 :: st, out)

/-- The up loop of `forward`:
`for i in range(len(up_modules)): data = up((data, stack_down.pop()))`.
`pop()` takes the most recently pushed entry (the list's last element) and
raises `IndexError` on an empty stack. -/
def upLoop (ups : List ModuleSpec) (d : PData) (stack : List PData) :
    Except PyErr PData :=
  match ups with
  | [] => .ok d
  | u :: rest =>
      match stack.getLast? with
      | none => .error .indexError
      | some top => upLoop rest (u.fwdU d top) stack.dropLast

/-- `extract_matching_key` (inner helper of `_collect_sampling_ids`): the
first key starting with the given token, if any. -/
def extractMatchingKey (keys : List String) (startToken : String) :
    Option String :=
  keys.find? (fun k => pyStartsWith k startToken)

/-- `UnwrappedUnetBasedModel._collect_sampling_ids` (`unet.py` lines
528-544): when sampling-id saving is active, walk the stack entries in
index order and record `key ↦ getattr(data, key)` in a dict for the first
key of each entry starting with `"sampling_id"` (Python dict insertion: a
repeated key keeps its first position and takes the later value).  `if key:`
is `None`-or-empty falsiness; a found key starts with `"sampling_id"` and is
therefore non-empty.  The `isinstance(data, MMData)` unwrapping branch is
vacuous on this path, which only ever stacks plain data objects (`forward`
raises before any multimodal data flows). -/
def collectSamplingIds (save : Bool) (listData : List PData) :
    List (String × Tensor) :=
  if save then
    listData.foldl
      (fun d data =>
        match extractMatchingKey data.keys "sampling_id" with
        | some key => assocSet d key ((data.getattrOpt key).getD [])
        | none => d)
      []
  else []

/-- The final loop of `forward`: `setattr(data, key, value)` for the
collected sampling ids, in dict order. -/
def applySamplingIds (ids : List (String × Tensor)) (d : PData) : PData :=
  ids.foldl (fun acc kv => acc.setattr kv.1 kv.2) d

/-- `UnwrappedUnetBasedModel.forward`: refuse multimodal models with
`NotImplementedError` first; then the down loop, the optional innermost
application (`if not isinstance(self.inner_modules[0], Identity)`), the
sampling-id collection, the up loop, and the sampling-id reattachment.
An empty down module list hits `self.down_modules[-1]` (`IndexError`), an
empty inner module list hits `self.inner_modules[0]` (`IndexError`); a
multimodal block reached on this plain-data path would be called on a
`Data` object it cannot process (`TypeError`). -/
def UUModel.forward (m : UUModel) (data : PData) : Except PyErr PData :=
  if m.isMultimodal then .error .notImplementedError
  else
    match allConvs? m.downModules with
    | none => .error .typeError
    | some convs =>
      match convs with
      | [] => .error .indexError
      | _ :: _ =>
        let (stackDown, dLast) := downLoop convs data
        match m.innerModules.head? with
        | none => .error .indexError
        | some inner =>
          let (stack2, d2) :=
            if !inner.isIdentityCls then (stackDown ++ [dLast], inner.fwdD dLast)
            else (stackDown, dLast)
          let ids := collectSamplingIds m.saveSamplingId stack2
          match upLoop m.upModules d2 stack2 with
          | .error e => .error e
          | .ok d3 => .ok (applySamplingIds ids d3)

/-- The skip stack that `forward` hands to `_collect_sampling_ids` (the
`stack_down` contents right after the optional innermost push), as a
standalone observation on the model. -/
def UUModel.forwardStack (m : UUModel) (data : PData) : List PData :=
  match allConvs? m.downModules with
  | none => []
  | some convs =>
    match convs with
    | [] => []
    | _ :: _ =>
      let (stackDown, dLast) := downLoop convs data
      match m.innerModules.head? with
      | none => stackDown
      | some inner =>
        if !inner.isIdentityCls then stackDown ++ [dLast] else stackDown

/-- The per-entry capture list of `_collect_sampling_ids`, without the final
dict collapsing: one `(key, value)` pair per skip entry whose key set has a
match, first matching key first. -/
def captureList (save : Bool) (listData : List PData) :
    List (String × Tensor) :=
  if save then
    listData.filterMap (fun data =>
      (extractMatchingKey data.keys "sampling_id").map
        (fun k => (k, (data.getattrOpt k).getD [])))
  else []

/-! ### Spec-side description of the single-modality forward pass -/

/-- The list of all down-module outputs in application order (the spec's
"run each down block in order, pushing its output onto a skip stack (except
the last ...)" is phrased over this list). -/
def downOutputs (convs : List ModuleSpec) (d : PData) : List PData :=
  match convs with
  | [] => []
  | f :: rest =>
      let d1 := f.fwdD d
      d1 :: downOutputs rest d1

/-- Follows the spec's words (§4.5, single-modality forward): run the down
modules in order; the skip stack holds every down output except the last;
if a non-identity innermost module is configured, push the last down output
too and apply the innermost module to it; apply each up module in order to
the pair (current output, most recently pushed unconsumed skip entry);
return the final output with the captured sampling-id tensors reattached
under their original names.  `none` when the path is outside the spec's
description (multimodal, no down module, no inner slot, or more up modules
than skip entries). -/
def UUModel.forwardSpec (m : UUModel) (data : PData) : Option PData :=
  if m.isMultimodal then none
  else
    match allConvs? m.downModules with
    | none => none
    | some convs =>
      let outs := downOutputs convs data
      match outs.getLast? with
      | none => none
      | some lastOut =>
        match m.innerModules.head? with
        | none => none
        | some inner =>
          let (skips, start) :=
            if !inner.isIdentityCls then
              (outs.dropLast ++ [lastOut], inner.fwdD lastOut)
            else (outs.dropLast, lastOut)
          if m.upModules.length ≤ skips.length then
            let result :=
              (m.upModules.zip skips.reverse).foldl
                (fun acc p => p.1.fwdU acc p.2) start
            some (applySamplingIds
              (collectSamplingIds m.saveSamplingId skips) result)
          else none

/-! ## `UnetBasedModel` format dispatch and `UnetSkipConnectionBlock`
(`unet.py` lines 92-329) -/

/-- Which initialiser `UnetBasedModel.__init__` dispatches to. -/
inductive InitFormat where
  | layerList
  | compact
  deriving DecidableEq, Repr

/-- The format detection of `UnetBasedModel.__init__` (`unet.py` lines
114-121): a `ListConfig` `down_conv`, or a compact one without the
`down_conv_nn` key, goes to `_init_from_layer_list_format`; otherwise to
`_init_from_compact_format`.  Both formats are accepted — neither raises on
format grounds. -/
def unetBasedFormatChoice (opt : Opt) : InitFormat :=
  match opt.downConv with
  | .listForm _ => .layerList
  | .compact o => if o.downConvNN.isNone then .layerList else .compact

mutual
/-- A constructed `UnetSkipConnectionBlock` object: the two flags plus the
attribute slots `__init__` may or may not have set (`none` models an
attribute that was never set, whose access raises `AttributeError`). -/
inductive USB where
  | mk (outermost innermost : Bool)
       (inner : Option (PData → PData))
       (down : Option (PData → PData))
       (submodule : USub)
       (up : Option (PData → PData → PData)) : USB

/-- The `submodule` attribute value: never set (`absent`), set to Python
`None` (calling it raises `TypeError`), the `Identity()` placeholder used by
the compact format when no innermost module exists, or a nested block. -/
inductive USub where
  | absent
  | noneV
  | identityM
  | blk (b : USB)
end

/-- `UnetSkipConnectionBlock.__init__` (`unet.py` lines 276-318), with the
class resolutions abstracted into the already-built argument functions: the
innermost branch asserts `outermost == False`, requires innermost and up
arguments (`get_from_kwargs` on a missing `args` dict raises `TypeError`)
and sets only `inner` and `up`; the general branch requires down and up
arguments and sets `down`, `submodule` and `up`. -/
def USB.init (argsUp : Option (PData → PData → PData))
    (argsDown : Option (PData → PData))
    (argsInnermost : Option (PData → PData))
    (submodule : USub) (outermost innermost : Bool) : Except PyErr USB :=
  if innermost then
    if outermost then .error .assertionError
    else
      match argsInnermost, argsUp with
      | some inner, some up =>
          .ok (.mk outermost innermost (some inner) none .absent (some up))
      | _, _ => .error .typeError
  else
    match argsDown, argsUp with
    | some dn, some up =>
        .ok (.mk outermost innermost none (some dn) submodule (some up))
    | _, _ => .error .typeError

/-- Reading an attribute that `__init__` may not have set: `AttributeError`
when absent. -/
def reqAttr : Option α → Except PyErr α
  | some a => .ok a
  | none => .error .attributeError

/-- `UnetSkipConnectionBlock.forward` (`unet.py` lines 320-329): dispatch on
the `innermost` flag; the innermost branch computes
`up((inner(data), data))`, the general branch computes
`up((submodule(down(data)), data))`, with attribute accesses in source
order (`inner`/`up`, respectively `down`/`submodule`/`up`) and errors from
the submodule call propagating. -/
def USB.forwardPy : USB → PData → Except PyErr PData
  | .mk _ innermost inner down sub up, data =>
    if innermost then do
      let f ← reqAttr inner
      let u ← reqAttr up
      .ok (u (f data) data)
    else do
      let dn ← reqAttr down
      let d2 ← (match sub with
        | .absent => (.error .attributeError : Except PyErr PData)
        | .noneV => .error .typeError
        | .identityM => .ok (dn data)
        | .blk b => USB.forwardPy b (dn data))
      let u ← reqAttr up
      .ok (u d2 data)

/-- Calling the `submodule` attribute value on a data object (the inlined
submodule case of `USB.forwardPy`, as a standalone function). -/
def USub.call : USub → PData → Except PyErr PData
  | .absent, _ => .error .attributeError
  | .noneV, _ => .error .typeError
  | .identityM, d => .ok d
  | .blk b, d => b.forwardPy d

mutual
/-- Spec-side description (§4.6) of a well-formed skip-connection tree: an
innermost leaf holding an inner module and an up module, or a node holding a
down module, a nested subtree (possibly the identity placeholder) and an up
module. -/
inductive UTree where
  | leafI (inner : PData → PData) (up : PData → PData → PData)
  | node (down : PData → PData) (sub : USubT)
         (up : PData → PData → PData)

/-- The submodule of a spec-side node. -/
inductive USubT where
  | idM
  | t (tr : UTree)
end

mutual
/-- Follows the spec's words (§4.6): a non-innermost node's forward calls
down, recurses into the submodule, and applies up to the pair
(post-submodule output, pre-down input); an innermost leaf applies up to
(inner output, original input). -/
def UTree.fwd : UTree → PData → PData
  | .leafI inner up, d => up (inner d) d
  | .node down sub up, d => up (USubT.fwd sub (down d)) d

/-- Spec-side forward of a node's submodule. -/
def USubT.fwd : USubT → PData → PData
  | .idM, d => d
  | .t tr, d => tr.fwd d
end

mutual
/-- The object a well-formed tree corresponds to, i.e. the attribute state
`__init__` produces for it (the `outermost` flag plays no role in `forward`
and is fixed to `false` here). -/
def UTree.toObj : UTree → USB
  | .leafI inner up => .mk false true (some inner) none .absent (some up)
  | .node down sub up =>
      .mk false false none (some down) (USubT.toObj sub) (some up)

/-- Object form of a node's submodule. -/
def USubT.toObj : USubT → USub
  | .idM => .identityM
  | .t tr => .blk tr.toObj
end

/-- Auxiliary: the operational `forward` agrees with the spec-side recursion
on every well-formed tree. -/
theorem utree_forward_agrees :
    ∀ (tr : UTree) (d : PData),
      (UTree.toObj tr).forwardPy d = .ok (tr.fwd d)
  | .leafI inner up, d => by
      simp [UTree.toObj, USB.forwardPy, UTree.fwd, reqAttr]
      rfl
  | .node down .idM up, d => by
      simp [UTree.toObj, USubT.toObj, USB.forwardPy, UTree.fwd,
        USubT.fwd, reqAttr]
      rfl
  | .node down (.t tr) up, d => by
      simp [UTree.toObj, USubT.toObj, USB.forwardPy, UTree.fwd,
        USubT.fwd, reqAttr, Bind.bind, Except.bind,
        utree_forward_agrees tr (down d)]

/-! ## Concrete fixtures used by witnesses and counterexamples -/

/-- A main-stream down-conv constructor: the layer built at index `i`
exposes a single sampler `i` and a single neighbour finder `100 + i`. -/
def fixDownCtor : Ctor := fun i =>
  { sampler := .one i, neighbourFinder := .one (100 + i) }

/-- A main-stream up-conv constructor: the layer built at index `i` exposes
an upsample operator `200 + i`. -/
def fixUpCtor : Ctor := fun i => { upsampleOp := .one (200 + i) }

/-- A `KPDualBlock`-style down-conv constructor: every built layer is a
composite of two sub-blocks and exposes two-element `sampler` and
`neighbour_finder` lists (`src/modules/KPConv/blocks.py` lines 228-234),
here with a `None` sampler on the non-strided second sub-block. -/
def fixDualCtor : Ctor := fun i =>
  { sampler := .many [some (10 + i), Option.none],
    neighbourFinder := .many [some (110 + i), some (120 + i)] }

/-- The main modules library of the fixtures. -/
def fixLib : ModulesLib :=
  ⟨fun n =>
    if n = "SimpleBlock" then some fixDownCtor
    else if n = "KPDualBlock" then some fixDualCtor
    else if n = "FPModule" then some fixUpCtor
    else none⟩

/-- The modality libraries of the fixtures. -/
def fixModalityLibs : ModalityLibs :=
  ⟨fun n => if n = "ResNet14" then some (fun _ => {}) else none,
   fun n => if n = "BimodalCSRPool" then some (fun _ => {}) else none,
   fun n => if n = "BimodalFusion" then some (fun _ => {}) else none,
   some (fun _ => {})⟩

/-- The modality-library environment of the fixtures. -/
def fixEnv : String → ModalityLibs := fun _ => fixModalityLibs

/-- An `image` modality sub-config with resolvable module names and a single
branching index `0`. -/
def fixImageOpt : ModalityOpt :=
  { downConv := ⟨"ResNet14"⟩, atomicPooling := ⟨"BimodalCSRPool"⟩,
    viewPooling := ⟨"BimodalCSRPool"⟩, fusion := ⟨"BimodalFusion"⟩,
    branchingIndex := .one 0 }

/-- A multimodal compact config with an even (2) down-conv count. -/
def fixOptEven : Opt :=
  { downConv := .compact
      { moduleName := "SimpleBlock", downConvNN := some 2,
        saveSamplingId := false, modalities := [("image", fixImageOpt)] },
    upConv := some ⟨"FPModule", 2⟩,
    innermost := none }

/-- A multimodal compact config with an odd (3) down-conv count. -/
def fixOptOdd : Opt :=
  { downConv := .compact
      { moduleName := "SimpleBlock", downConvNN := some 3,
        saveSamplingId := false, modalities := [("image", fixImageOpt)] },
    upConv := some ⟨"FPModule", 3⟩,
    innermost := none }

/-- A multimodal compact config with a zero down-conv count. -/
def fixOptZero : Opt :=
  { downConv := .compact
      { moduleName := "SimpleBlock", downConvNN := some 0,
        saveSamplingId := false, modalities := [("image", fixImageOpt)] },
    upConv := some ⟨"FPModule", 0⟩,
    innermost := none }

/-- A single-modality compact config with 2 down and 2 up stages. -/
def fixOptSingle : Opt :=
  { downConv := .compact
      { moduleName := "SimpleBlock", downConvNN := some 2,
        saveSamplingId := false, modalities := [] },
    upConv := some ⟨"FPModule", 2⟩,
    innermost := none }

/-- A hand-built multimodal model state (the modality list is all `forward`
consults before refusing). -/
def fixMM : UUModel :=
  { modalities := ["image"], saveSamplingId := false,
    innerModules := [identityModule], downModules := [], upModules := [],
    spatialOps := {} }

/-! ## Claim C1 -/

/-- **C1.** For every `UnwrappedUnetBasedModel` whose configuration declared
at least one modality (`is_multimodal`), every call to `forward` returns
`NotImplementedError` immediately and deterministically: the result is this
fixed error for every input and for arbitrary down/inner/up module lists
(which are fields of `m` and universally quantified with it), so no down,
inner or up module ever runs and nothing silently degrades to
single-modality behaviour. -/
theorem C1_multimodal_forward_unsupported (m : UUModel) (data : PData)
    (h : m.isMultimodal = true) :
    m.forward data = .error .notImplementedError := by
  unfold UUModel.forward
  rw [h]
  rfl

/-- Witness for C1 at a concrete multimodal model state. -/
theorem C1_multimodal_forward_unsupported_witness :
    fixMM.isMultimodal = true ∧
    fixMM.forward ⟨[]⟩ = .error .notImplementedError :=
  ⟨rfl, C1_multimodal_forward_unsupported fixMM ⟨[]⟩ rfl⟩

/-! ## Claim C10 -/

/-- **C10.** A `down_conv` section given as a list, or lacking the
`down_conv_nn` key, makes `UnwrappedUnetBasedModel.__init__` raise
`NotImplementedError` during initialisation — for every module library and
environment, so before any module is built — while `UnetBasedModel.__init__`
dispatches the same configuration to its layer-list initialiser instead of
raising. -/
theorem C10_non_compact_format_rejected (opt : Opt) (lib : ModulesLib)
    (env : String → ModalityLibs)
    (h : (∃ ls, opt.downConv = .listForm ls) ∨
         (∃ o, opt.downConv = .compact o ∧ o.downConvNN = none)) :
    unwrappedInit opt lib env = .error .notImplementedError ∧
    unetBasedFormatChoice opt = .layerList := by
  rcases h with ⟨ls, hl⟩ | ⟨o, ho, hnn⟩
  · constructor
    · unfold unwrappedInit; rw [hl]
    · unfold unetBasedFormatChoice; rw [hl]
  · constructor
    · unfold unwrappedInit; rw [ho]; simp [hnn]
    · unfold unetBasedFormatChoice; rw [ho]; simp [hnn]

/-- Witness for C10 at a concrete list-format configuration. -/
theorem C10_non_compact_format_rejected_witness :
    unwrappedInit ⟨.listForm [], none, none⟩ fixLib fixEnv
        = .error .notImplementedError ∧
    unetBasedFormatChoice ⟨.listForm [], none, none⟩ = .layerList :=
  C10_non_compact_format_rejected ⟨.listForm [], none, none⟩ fixLib fixEnv
    (.inl ⟨[], rfl⟩)

/-! ## Claim C9 -/

/-- **C9.** `UnetSkipConnectionBlock.forward`: a non-innermost block applies
`down` to the input, runs the submodule on the down output, and applies `up`
to the pair (post-submodule output, pre-down input); an innermost block
applies `inner` and passes (inner output, original input) to `up`.  Stated
per object shape and, for whole well-formed trees, as agreement of the
operational forward with the spec-side recursion `UTree.fwd`. -/
theorem C9_skip_block_forward :
    (∀ (outermost : Bool) (down : PData → PData) (sub : USub)
       (up : PData → PData → PData) (d : PData),
        (USB.mk outermost false none (some down) sub (some up)).forwardPy d
          = (USub.call sub (down d)).bind (fun r => .ok (up r d))) ∧
    (∀ (outermost : Bool) (inner : PData → PData)
       (up : PData → PData → PData) (d : PData),
        (USB.mk outermost true (some inner) none .absent
          (some up)).forwardPy d = .ok (up (inner d) d)) ∧
    (∀ (tr : UTree) (d : PData),
        (UTree.toObj tr).forwardPy d = .ok (tr.fwd d)) := by
  refine ⟨?_, ?_, fun tr d => utree_forward_agrees tr d⟩
  · intro outermost down sub up d
    cases sub <;> simp [USB.forwardPy, USub.call, reqAttr, Bind.bind,
      Except.bind]
  · intro outermost inner up d
    simp [USB.forwardPy, reqAttr]
    rfl

/-! ## Claim C2 -/

/-- **C2 (code evaluation).** On a modality-bearing compact configuration
with all module names resolvable: an odd (3) or zero main-stream down-conv
count makes construction fail with the parity `AssertionError` before any
forward pass, and no model is returned — but an even positive (2) count is
*not* accepted either: construction passes the parity check, pairs the
convolutions, and then crashes with `AttributeError` inside
`MultimodalBlockDown._init_from_kwargs`, because `unet.py` passes branch
module objects (`nn.Identity()` / `UnimodalBranch`) where `modules.py`
demands dicts exposing `'conv'`/`'merge'` keys (`kwargs[m].keys()` on a
module object).  The same file pair is also inconsistent at import level:
`unet.py` imports `UnimodalBranch` from `modules.py`, which does not define
it. -/
theorem C2_parity_ok_but_pairing_crashes :
    unwrappedInit fixOptOdd fixLib fixEnv = .error .assertionError ∧
    unwrappedInit fixOptZero fixLib fixEnv = .error .assertionError ∧
    unwrappedInit fixOptEven fixLib fixEnv = .error .attributeError :=
  ⟨rfl, rfl, rfl⟩

/-! ## Claim C6 -/

/-- The down-convolution sub-block of the C6 scenario. -/
def fixDownBlockC6 : ModuleSpec :=
  { sampler := .one 0, neighbourFinder := .one 10 }

/-- The post-fusion convolution sub-block of the C6 scenario, with operators
distinct from the down block's. -/
def fixConvBlockC6 : ModuleSpec :=
  { sampler := .one 1, neighbourFinder := .one 11 }

/-- Follows the spec's words (§4.4): "the union of sampler/neighbor-finder
references from its own two main-stream sub-convolutions" — the sampler and
neighbour-finder attributes of both the down-convolution and the post-fusion
convolution. -/
def specMainStreamOperators (down conv : ModuleSpec) :
    List OpAttr × List OpAttr :=
  ([down.sampler, conv.sampler], [down.neighbourFinder, conv.neighbourFinder])

/-- **C6 (counterexample).** A `MultimodalBlockDown` built from two
sub-convolutions with distinct operators exposes `[down.sampler,
down.sampler]` — not the claimed union `[down.sampler, conv.sampler]` — and
exposes no `neighbour_finder` attribute at all, although the claimed union
of neighbour finders is non-empty. -/
theorem C6_exposure_counterexample :
    (MMBlock.init fixDownBlockC6 fixConvBlockC6 []).map (fun b => b.sampler)
        = .ok [.one 0, .one 0] ∧
    (specMainStreamOperators fixDownBlockC6 fixConvBlockC6).1
        = [.one 0, .one 1] ∧
    [OpAttr.one 0, OpAttr.one 0] ≠ [OpAttr.one 0, OpAttr.one 1] ∧
    (MMBlock.init fixDownBlockC6 fixConvBlockC6 []).map
        (fun b => b.neighbourFinderAttr) = .ok .none ∧
    (specMainStreamOperators fixDownBlockC6 fixConvBlockC6).2
        = [.one 10, .one 11] :=
  ⟨rfl, rfl, by decide, rfl, rfl⟩

/-- **C6 (amended).** Every constructed `MultimodalBlockDown` exposes, for
the assembler's bundle collection, a two-element sampler list holding the
down-convolution's sampler attribute twice — the post-fusion convolution's
operators are not referenced — and exposes no neighbour-finder attribute. -/
theorem C6_amended_exposure (down conv : ModuleSpec)
    (kwargs : List (String × PyBranchVal))
    (hok : (MMBlock.init down conv kwargs).isOk = true) :
    (MMBlock.init down conv kwargs).map (fun b => b.sampler)
        = .ok [down.sampler, down.sampler] ∧
    (MMBlock.init down conv kwargs).map (fun b => b.neighbourFinderAttr)
        = .ok .none := by
  cases h : initFromKwargs kwargs with
  | error e =>
      exfalso
      simp [MMBlock.init, h, Except.isOk, Except.toBool, Bind.bind,
        Except.bind] at hok
  | ok mb =>
      simp [MMBlock.init, h, Except.map, Bind.bind, Except.bind,
        MMBlock.neighbourFinderAttr]

/-- Witness for the amended C6 statement at a concrete block. -/
theorem C6_amended_exposure_witness :
    (MMBlock.init fixDownBlockC6 fixConvBlockC6 []).map (fun b => b.sampler)
        = .ok [fixDownBlockC6.sampler, fixDownBlockC6.sampler] ∧
    (MMBlock.init fixDownBlockC6 fixConvBlockC6 []).map
        (fun b => b.neighbourFinderAttr) = .ok .none :=
  C6_amended_exposure fixDownBlockC6 fixConvBlockC6 [] rfl

/-! ## Claim C7 -/

/-- The modality convolution of the C7 scenario (tags its input). -/
def fixModConvC7 : ModuleSpec :=
  { fwdD := fun d => ⟨("modconv", [5]) :: d.attrs⟩ }

/-- The merge module the C7 scenario stores (validated but never used by
`forward`). -/
def fixMergeC7 : ModuleSpec := {}

/-- The main-stream down conv of the C7 scenario (tags its input). -/
def fixDownC7 : ModuleSpec := { fwdD := fun d => ⟨("down", [1]) :: d.attrs⟩ }

/-- The main-stream post-fusion conv of the C7 scenario (tags its input). -/
def fixConvC7 : ModuleSpec := { fwdD := fun d => ⟨("post", [2]) :: d.attrs⟩ }

/-- A joint sample carrying one `image` modality. -/
def fixMMDataImage : MMDataV := ⟨⟨[]⟩, [("image", ⟨⟨[]⟩, 0⟩)]⟩

/-- A joint sample with no modality payload. -/
def fixMMDataPlain : MMDataV := ⟨⟨[]⟩, []⟩

/-- **C7 (code evaluation).** A `MultimodalBlockDown` whose kwargs pass the
constructor's own `'conv'`/`'merge'` validation is built successfully, but
its `forward` on a joint sample with one modality raises `AttributeError`
at the merge step — `self.merge_block_mod` is never set by the class, and
the validated `'merge'` module is never used — instead of merging and
returning the updated joint sample; with no modality stored, `forward`
returns the sample after the down conv and the post-fusion conv, in that
order. -/
theorem C7_forward_merge_attribute_crash :
    (MMBlock.init fixDownC7 fixConvC7
        [("image", .dict [("conv", fixModConvC7), ("merge", fixMergeC7)])]
      ).isOk = true ∧
    ((MMBlock.init fixDownC7 fixConvC7
        [("image", .dict [("conv", fixModConvC7), ("merge", fixMergeC7)])]
      ).bind (fun b => b.forward fixMMDataImage)) = .error .attributeError ∧
    ((MMBlock.init fixDownC7 fixConvC7 []).bind
        (fun b => b.forward fixMMDataPlain)).map (fun mm => mm.data)
      = .ok ⟨[("post", [2]), ("down", [1])]⟩ :=
  ⟨rfl, rfl, rfl⟩

/-! ## Claim C8 -/

/-- Auxiliary: a build loop whose every step fails fails as a whole (for a
positive number of steps). -/
theorem buildRange_error_of_const (build : Nat → Except PyErr ModuleSpec)
    (e : PyErr) (h : ∀ i, build i = .error e) :
    ∀ n, 0 < n → buildRange n build = .error e := by
  intro n
  induction n with
  | zero => intro h0; exact absurd h0 (by simp)
  | succ k ih =>
      intro _
      by_cases hk : 0 < k
      · simp only [buildRange]
        rw [ih hk]
      · have hk0 : k = 0 := by omega
        subst hk0
        simp only [buildRange]
        rw [h 0]

/-- Auxiliary: `mapExcept` succeeds when every element does. -/
theorem mapExcept_ok_of_forall {α β : Type} (f : α → Except PyErr β)
    (l : List α) (h : ∀ a ∈ l, ∃ b, f a = .ok b) :
    ∃ bs, mapExcept f l = .ok bs := by
  induction l with
  | nil => exact ⟨[], rfl⟩
  | cons a t ih =>
      obtain ⟨b, hb⟩ := h a (List.mem_cons_self a t)
      obtain ⟨bs, hbs⟩ := ih (fun x hx => h x (List.mem_cons_of_mem a hx))
      exact ⟨b :: bs, by simp only [mapExcept]; rw [hb, hbs]⟩

/-- Auxiliary: every modality name detected by `fetch_modalities` is a key
of the config, so the factory-building loop always finds its sub-config. -/
theorem buildModalityFactories_ok (o : DownConvOpt)
    (env : String → ModalityLibs) :
    ∃ l, buildModalityFactories o
      (fetchModalities (.compact o) MODALITY_NAMES) env = .ok l := by
  unfold buildModalityFactories
  apply mapExcept_ok_of_forall
  intro m hm
  have h2 : ∃ x, (m, x) ∈ o.modalities := by
    have h3 := hm
    simp [fetchModalities] at h3
    exact h3.2
  obtain ⟨x, hx⟩ := h2
  have hsome : (o.modalities.find? (fun kv => kv.1 = m)).isSome := by
    rw [List.find?_isSome]
    exact ⟨(m, x), hx, by simp⟩
  obtain ⟨mo, hmo⟩ := Option.isSome_iff_exists.mp hsome
  obtain ⟨a, b⟩ := mo
  exact ⟨_, by rw [hmo]⟩

/-- **C8.** Resolving an unknown module name fails at model-build time:
through either factory, `get_module` yields `None` for an unknown name and
`_build_module`'s `module(**args)` call then raises `TypeError` right there
(first conjunct, for every factory and flow — main DOWN/UP through
`BaseFactory`, modality ATOMIC/VIEW/FUSION/UNET/conv through
`ModalityFactory`); consequently construction itself fails — a compact
config whose main down name is unknown makes `unwrappedInit` return that
`TypeError` (second conjunct), so no model object exists and the failure
cannot be deferred to a forward pass. -/
theorem C8_unknown_name_fails_at_build_time
    (fac : Factory) (i : Nat) (flow : String)
    (hres : fac.getModule flow = none)
    (opt : Opt) (o : DownConvOpt) (N : Nat) (lib : ModulesLib)
    (env : String → ModalityLibs)
    (hdc : opt.downConv = .compact o) (hnn : o.downConvNN = some N)
    (hN : 0 < N) (hinner : opt.innermost = none)
    (hmain : lib.get o.moduleName = none) :
    buildModule fac i flow = .error .typeError ∧
    unwrappedInit opt lib env = .error .typeError := by
  constructor
  · unfold buildModule
    rw [hres]
  · unfold unwrappedInit
    rw [hdc]
    simp only [hnn]
    obtain ⟨mf, hmf⟩ := buildModalityFactories_ok o env
    unfold initFromCompact
    rw [hmf]
    have hinners : buildInners opt lib = .ok [identityModule] := by
      unfold buildInners; rw [hinner]
    rw [hinners]
    have hg : (Factory.base (mainFactory opt o lib)).getModule "DOWN"
        = none := by
      simp only [Factory.getModule, BaseFactory.getModule]
      rw [if_neg (by decide : ¬ (pyUpper "DOWN" = "UP"))]
      exact hmain
    have hdown : buildMainDowns (mainFactory opt o lib) N
        = .error .typeError := by
      unfold buildMainDowns
      apply buildRange_error_of_const _ _ _ N hN
      intro j
      unfold buildModule
      rw [hg]
    rw [hdown]

/-- A single-modality compact config whose main down module name resolves to
nothing in the fixture library. -/
def fixOptUnknownDown : Opt :=
  { downConv := .compact
      { moduleName := "NoSuchModule", downConvNN := some 2,
        saveSamplingId := false, modalities := [] },
    upConv := some ⟨"FPModule", 2⟩,
    innermost := none }

/-- Witness for C8: a concrete unknown-name resolution failing through the
base factory, and a concrete construction failing with the same error. -/
theorem C8_unknown_name_fails_at_build_time_witness :
    buildModule (.base ⟨"NoSuchModule", none, fixLib⟩) 0 "DOWN"
        = .error .typeError ∧
    unwrappedInit fixOptUnknownDown fixLib fixEnv = .error .typeError :=
  C8_unknown_name_fails_at_build_time
    (.base ⟨"NoSuchModule", none, fixLib⟩) 0 "DOWN" rfl
    fixOptUnknownDown
    { moduleName := "NoSuchModule", downConvNN := some 2,
      saveSamplingId := false, modalities := [] }
    2 fixLib fixEnv rfl rfl (by decide) rfl rfl

/-! ## Claim C3 -/

/-- Auxiliary: the source down loop computes the all-but-last outputs as the
skip stack and the last output as the running data. -/
theorem downLoop_eq_downOutputs (rest : List ModuleSpec) :
    ∀ (f : ModuleSpec) (d : PData),
    downLoop (f :: rest) d
      = ((downOutputs (f :: rest) d).dropLast,
         (downOutputs (f :: rest) d).getLastD d) := by
  induction rest with
  | nil => intro f d; simp [downLoop, downOutputs]
  | cons g rest ih =>
      intro f d
      simp only [downLoop]
      rw [ih g (f.fwdD d)]
      simp only [downOutputs]
      rw [List.dropLast_cons₂]
      rw [List.getLastD_cons, List.getLastD_cons, List.getLastD_cons]

/-- Auxiliary: the source up loop (popping the most recent stack entry each
step) equals the spec-side fold of the up modules over the reversed skip
stack, whenever the stack is deep enough. -/
theorem upLoop_eq_foldl (ups : List ModuleSpec) :
    ∀ (st : List PData) (d : PData), ups.length ≤ st.length →
    upLoop ups d st
      = .ok ((ups.zip st.reverse).foldl (fun acc p => p.1.fwdU acc p.2) d) := by
  induction ups with
  | nil => intro st d _; simp [upLoop]
  | cons u rest ih =>
      intro st d h
      rcases List.eq_nil_or_concat st with rfl | ⟨ys, y, rfl⟩
      · simp at h
      · simp only [upLoop, List.concat_eq_append]
        rw [List.getLast?_concat, List.dropLast_concat]
        show upLoop rest (u.fwdU d y) ys
            = .ok (List.foldl (fun acc p => p.1.fwdU acc p.2) d
                ((u :: rest).zip (ys ++ [y]).reverse))
        rw [ih ys (u.fwdU d y) (by
          simp only [List.concat_eq_append] at h
          simpa using h)]
        rw [show (ys ++ [y]).reverse = y :: ys.reverse from by simp]
        rw [List.zip_cons_cons, List.foldl_cons]

/-- Auxiliary: `getLast?` of a non-empty list is `some` of its `getLastD`,
for any default. -/
theorem getLast?_cons_eq_getLastD (a : PData) (l : List PData) (d : PData) :
    (a :: l).getLast? = some ((a :: l).getLastD d) := by
  induction l generalizing a d with
  | nil => rfl
  | cons b t ih =>
      rw [List.getLast?_cons_cons, List.getLastD_cons]
      exact ih b d

/-- **C3.** For a single-modality model with at least one down module, a
non-empty inner-module list and at most as many up modules as skip entries,
`forward` computes exactly the spec-side description `forwardSpec`: down
modules run in order pushing every output but the last; a non-identity
`inner_modules[0]` pushes the last down output and transforms it; the up
modules consume (current, most recently pushed unconsumed skip) pairs in
order; and the captured sampling-id tensors are reattached to the final
output. -/
theorem C3_forward_matches_spec (m : UUModel) (data : PData)
    (f0 : ModuleSpec) (rest : List ModuleSpec)
    (inner0 : ModuleSpec) (innerRest : List ModuleSpec)
    (h1 : m.isMultimodal = false)
    (h2 : allConvs? m.downModules = some (f0 :: rest))
    (h4 : m.innerModules = inner0 :: innerRest)
    (h5 : m.upModules.length ≤ (m.forwardStack data).length) :
    (m.forwardSpec data).isSome = true ∧
    m.forward data = .ok ((m.forwardSpec data).getD data) := by
  have hload := downLoop_eq_downOutputs rest f0 data
  have hlast := getLast?_cons_eq_getLastD (f0.fwdD data)
    (downOutputs rest (f0.fwdD data)) data
  unfold UUModel.forwardStack at h5
  rw [h2, h4] at h5
  dsimp only at h5
  rw [hload] at h5
  simp only [List.head?_cons] at h5
  dsimp only [downOutputs] at h5
  unfold UUModel.forward UUModel.forwardSpec
  rw [h1, h2, h4]
  dsimp only
  rw [hload]
  dsimp only [downOutputs] at hlast ⊢
  rw [hlast]
  simp only [List.head?_cons, Bool.false_eq_true, if_false]
  cases hic : inner0.isIdentityCls with
  | true =>
      simp only [hic, Bool.not_true, Bool.false_eq_true, if_false] at h5 ⊢
      rw [if_pos h5]
      rw [upLoop_eq_foldl m.upModules _ _ h5]
      simp
  | false =>
      simp only [hic, Bool.not_false, if_true] at h5 ⊢
      rw [if_pos h5]
      rw [upLoop_eq_foldl m.upModules _ _ h5]
      simp

/-- A down module stamping a `sampling_id_a` tensor. -/
def fixDA : ModuleSpec := { fwdD := fun _ => ⟨[("sampling_id_a", [1])]⟩ }

/-- A down module stamping a `sampling_id_b` tensor. -/
def fixDB : ModuleSpec := { fwdD := fun _ => ⟨[("sampling_id_b", [2])]⟩ }

/-- A last down module with no sampling-id attribute. -/
def fixDC : ModuleSpec := { fwdD := fun _ => ⟨[("pos", [3])]⟩ }

/-- A non-identity innermost module (tags its input). -/
def fixInner : ModuleSpec := { fwdD := fun d => ⟨("inner", [7]) :: d.attrs⟩ }

/-- An up module concatenating the current output with the popped skip. -/
def fixUpCat : ModuleSpec := { fwdU := fun d s => ⟨d.attrs ++ s.attrs⟩ }

/-- A single-modality model with three down stages, a non-identity innermost
module, three up stages and sampling-id saving active. -/
def fixC3Model : UUModel :=
  { modalities := [], saveSamplingId := true,
    innerModules := [fixInner],
    downModules := [.conv fixDA, .conv fixDB, .conv fixDC],
    upModules := [fixUpCat, fixUpCat, fixUpCat], spatialOps := {} }

/-- Witness for C3 at a concrete three-stage model. -/
theorem C3_forward_matches_spec_witness :
    (fixC3Model.forwardSpec ⟨[]⟩).isSome = true ∧
    fixC3Model.forward ⟨[]⟩ = .ok ((fixC3Model.forwardSpec ⟨[]⟩).getD ⟨[]⟩) :=
  C3_forward_matches_spec fixC3Model ⟨[]⟩ fixDA [fixDB, fixDC] fixInner []
    rfl rfl rfl (by decide)

/-! ## Claim C4 -/

/-- Auxiliary: setting a fresh key appends it. -/
theorem assocSet_of_not_mem (l : List (String × Tensor)) (k : String)
    (v : Tensor) (h : k ∉ l.map Prod.fst) :
    assocSet l k v = l ++ [(k, v)] := by
  induction l with
  | nil => rfl
  | cons kv rest ih =>
      simp only [List.map_cons, List.mem_cons] at h
      push_neg at h
      simp only [assocSet]
      rw [if_neg (fun he => h.1 he.symm)]
      rw [ih h.2]
      rfl

/-- Auxiliary: the dict built by `_collect_sampling_ids` equals the raw
per-entry capture list appended to the accumulator, whenever the captured
keys are fresh for the accumulator and pairwise distinct. -/
theorem collectFold_eq_append (ld : List PData) :
    ∀ (acc : List (String × Tensor)),
    ((captureList true ld).map Prod.fst).Nodup →
    (∀ k, k ∈ (captureList true ld).map Prod.fst → k ∉ acc.map Prod.fst) →
    ld.foldl
      (fun d data =>
        match extractMatchingKey data.keys "sampling_id" with
        | some key => assocSet d key ((data.getattrOpt key).getD [])
        | none => d)
      acc = acc ++ captureList true ld := by
  induction ld with
  | nil => intro acc _ _; simp [captureList]
  | cons data ld ih =>
      intro acc hnd hfresh
      rw [List.foldl_cons]
      cases hk : extractMatchingKey data.keys "sampling_id" with
      | none =>
          have hcap : captureList true (data :: ld) = captureList true ld := by
            simp [captureList, hk]
          rw [hcap] at hnd hfresh
          simp only [hk]
          rw [ih acc hnd hfresh, hcap]
      | some k =>
          have hcap : captureList true (data :: ld)
              = (k, (data.getattrOpt k).getD []) :: captureList true ld := by
            simp [captureList, hk]
          rw [hcap] at hnd hfresh
          simp only [List.map_cons, List.nodup_cons] at hnd
          simp only [hk]
          rw [assocSet_of_not_mem acc k _
            (hfresh k (by simp [List.map_cons]))]
          rw [ih (acc ++ [(k, (data.getattrOpt k).getD [])]) hnd.2
            (fun k' hk' => by
              simp only [List.map_append, List.mem_append]
              push_neg
              constructor
              · exact hfresh k' (by simp [List.map_cons, hk'])
              · intro hmem
                simp at hmem
                exact absurd (hmem ▸ hk') hnd.1)]
          rw [hcap, List.append_assoc]
          rfl

/-- Auxiliary: `_collect_sampling_ids` produces exactly the per-entry
capture list when the captured keys are pairwise distinct. -/
theorem collectSamplingIds_eq_captureList (ld : List PData)
    (hnd : ((captureList true ld).map Prod.fst).Nodup) :
    collectSamplingIds true ld = captureList true ld := by
  unfold collectSamplingIds
  rw [if_pos rfl]
  simpa using collectFold_eq_append ld [] hnd (by simp)

/-- Auxiliary: `setattr` then `getattr` on the same key. -/
theorem getattrOpt_setattr_self (d : PData) (k : String) (v : Tensor) :
    (d.setattr k v).getattrOpt k = some v := by
  obtain ⟨l⟩ := d
  induction l with
  | nil => simp [PData.setattr, PData.getattrOpt, assocSet]
  | cons kv rest ih =>
      by_cases he : kv.1 = k
      · simp [PData.setattr, PData.getattrOpt, assocSet, he]
      · simp only [PData.setattr, PData.getattrOpt, assocSet]
        rw [if_neg he]
        simpa [PData.setattr, PData.getattrOpt, List.find?, he] using ih

/-- Auxiliary: `setattr` on a different key leaves `getattr` unchanged. -/
theorem getattrOpt_setattr_ne (d : PData) (k k' : String) (v : Tensor)
    (h : k' ≠ k) : (d.setattr k' v).getattrOpt k = d.getattrOpt k := by
  obtain ⟨l⟩ := d
  induction l with
  | nil => simp [PData.setattr, PData.getattrOpt, assocSet, List.find?, h]
  | cons kv rest ih =>
      by_cases he : kv.1 = k'
      · simp only [PData.setattr, PData.getattrOpt, assocSet]
        rw [if_pos he]
        simp [List.find?, h, he]
      · simp only [PData.setattr, PData.getattrOpt, assocSet]
        rw [if_neg he]
        by_cases hk : kv.1 = k
        · simp [List.find?, hk]
        · simpa [PData.setattr, PData.getattrOpt, List.find?, hk]
            using ih

/-- Auxiliary: reattaching ids never touches keys outside the id dict. -/
theorem applySamplingIds_getattr_not_mem (ids : List (String × Tensor)) :
    ∀ (d : PData) (k : String), k ∉ ids.map Prod.fst →
    (applySamplingIds ids d).getattrOpt k = d.getattrOpt k := by
  induction ids with
  | nil => intro d k _; rfl
  | cons kv rest ih =>
      intro d k hk
      simp only [List.map_cons, List.mem_cons] at hk
      push_neg at hk
      unfold applySamplingIds
      rw [List.foldl_cons]
      have := ih (d.setattr kv.1 kv.2) k hk.2
      unfold applySamplingIds at this
      rw [this]
      exact getattrOpt_setattr_ne d k kv.1 kv.2 (fun he => hk.1 he.symm)

/-- Auxiliary: after reattaching an id dict with pairwise-distinct keys,
every entry is found unchanged on the output. -/
theorem applySamplingIds_getattr_mem (ids : List (String × Tensor)) :
    ∀ (d : PData), (ids.map Prod.fst).Nodup →
    ∀ kv ∈ ids, (applySamplingIds ids d).getattrOpt kv.1 = some kv.2 := by
  induction ids with
  | nil => intro d _ kv h; simp at h
  | cons kv0 rest ih =>
      intro d hnd kv hmem
      simp only [List.map_cons, List.nodup_cons] at hnd
      rcases List.mem_cons.mp hmem with rfl | hmem'
      · unfold applySamplingIds
        rw [List.foldl_cons]
        have := applySamplingIds_getattr_not_mem rest
          (d.setattr kv.1 kv.2) kv.1 hnd.1
        unfold applySamplingIds at this
        rw [this]
        exact getattrOpt_setattr_self d kv.1 kv.2
      · unfold applySamplingIds
        rw [List.foldl_cons]
        have := ih (d.setattr kv0.1 kv0.2) hnd.2 kv hmem'
        unfold applySamplingIds at this
        rw [this]

/-- Auxiliary: under the single-modality applicability conditions, `forward`
returns the up-path result with the sampling ids collected from the skip
stack reattached. -/
theorem forward_applies_ids_aux (m : UUModel) (data : PData)
    (f0 : ModuleSpec) (rest : List ModuleSpec)
    (inner0 : ModuleSpec) (innerRest : List ModuleSpec)
    (h1 : m.isMultimodal = false)
    (h2 : allConvs? m.downModules = some (f0 :: rest))
    (h4 : m.innerModules = inner0 :: innerRest)
    (h5 : m.upModules.length ≤ (m.forwardStack data).length) :
    ∃ r, m.forward data
      = .ok (applySamplingIds
          (collectSamplingIds m.saveSamplingId (m.forwardStack data)) r) := by
  have hload := downLoop_eq_downOutputs rest f0 data
  unfold UUModel.forwardStack at h5 ⊢
  rw [h2, h4] at h5 ⊢
  dsimp only at h5 ⊢
  rw [hload] at h5 ⊢
  simp only [List.head?_cons] at h5 ⊢
  dsimp only [downOutputs] at h5 ⊢
  unfold UUModel.forward
  rw [h1, h2, h4]
  dsimp only
  rw [hload]
  dsimp only [downOutputs]
  simp only [List.head?_cons, Bool.false_eq_true, if_false]
  cases hic : inner0.isIdentityCls with
  | true =>
      simp only [hic, Bool.not_true, Bool.false_eq_true, if_false] at h5 ⊢
      rw [upLoop_eq_foldl m.upModules _ _ h5]
      exact ⟨_, rfl⟩
  | false =>
      simp only [hic, Bool.not_false, if_true] at h5 ⊢
      rw [upLoop_eq_foldl m.upModules _ _ h5]
      exact ⟨_, rfl⟩

/-- A down module stamping key `sampling_id` with tensor `[1]`. -/
def fixDupA : ModuleSpec := { fwdD := fun _ => ⟨[("sampling_id", [1])]⟩ }

/-- A second down module stamping the *same* key `sampling_id`, with tensor
`[2]`. -/
def fixDupB : ModuleSpec := { fwdD := fun _ => ⟨[("sampling_id", [2])]⟩ }

/-- A model whose two stacked skip entries capture the same sampling-id
key. -/
def fixC4Dup : UUModel :=
  { modalities := [], saveSamplingId := true,
    innerModules := [identityModule],
    downModules := [.conv fixDupA, .conv fixDupB, .conv fixDC],
    upModules := [], spatialOps := {} }

/-- **C4 (counterexample).** When two skip-stack depths capture the same key
(here `sampling_id` at depths 0 and 1), the dict built by
`_collect_sampling_ids` keeps only the later value, so the tensor captured
at depth 0 (`[1]`) is *not* reattached bit-identical to the final output:
the output carries `[2]` under that key. -/
theorem C4_round_trip_counterexample :
    captureList true (fixC4Dup.forwardStack ⟨[]⟩)
        = [("sampling_id", [1]), ("sampling_id", [2])] ∧
    fixC4Dup.forward ⟨[]⟩ = .ok ⟨[("pos", [3]), ("sampling_id", [2])]⟩ ∧
    PData.getattrOpt ⟨[("pos", [3]), ("sampling_id", [2])]⟩ "sampling_id"
        ≠ some [1] :=
  ⟨rfl, rfl, by decide⟩

/-- **C4 (amended).** For every single-modality forward pass with
sampling-id saving active, each skip-stack entry's first attribute key
beginning with `"sampling_id"` is captured (at most one key per entry, first
match wins — this is the definition of `captureList`), and *provided the
captured keys are pairwise distinct across depths*, every captured tensor is
reattached to the final output under its original key, bit-identical to the
value captured at that depth, for arbitrary intervening up modules. -/
theorem C4_sampling_id_round_trip (m : UUModel) (data : PData)
    (f0 : ModuleSpec) (rest : List ModuleSpec)
    (inner0 : ModuleSpec) (innerRest : List ModuleSpec)
    (h1 : m.isMultimodal = false)
    (h2 : allConvs? m.downModules = some (f0 :: rest))
    (h4 : m.innerModules = inner0 :: innerRest)
    (h5 : m.upModules.length ≤ (m.forwardStack data).length)
    (hsave : m.saveSamplingId = true)
    (hnd : ((captureList true (m.forwardStack data)).map Prod.fst).Nodup) :
    ∀ kv ∈ captureList true (m.forwardStack data),
      (m.forward data).map (fun out => out.getattrOpt kv.1)
        = .ok (some kv.2) := by
  obtain ⟨r, hr⟩ :=
    forward_applies_ids_aux m data f0 rest inner0 innerRest h1 h2 h4 h5
  rw [hsave] at hr
  rw [collectSamplingIds_eq_captureList _ hnd] at hr
  intro kv hkv
  rw [hr]
  simp only [Except.map]
  rw [applySamplingIds_getattr_mem _ _ hnd kv hkv]

/-- Witness for the amended C4 statement: both captured tensors of the
three-stage fixture model are found bit-identical on the final output. -/
theorem C4_sampling_id_round_trip_witness :
    (fixC3Model.forward ⟨[]⟩).map
        (fun out => out.getattrOpt "sampling_id_a") = .ok (some [1]) ∧
    (fixC3Model.forward ⟨[]⟩).map
        (fun out => out.getattrOpt "sampling_id_b") = .ok (some [2]) :=
  ⟨C4_sampling_id_round_trip fixC3Model ⟨[]⟩ fixDA [fixDB, fixDC] fixInner []
      rfl rfl rfl (by decide) rfl (by decide) ("sampling_id_a", [1])
      (by decide),
   C4_sampling_id_round_trip fixC3Model ⟨[]⟩ fixDA [fixDB, fixDC] fixInner []
      rfl rfl rfl (by decide) rfl (by decide) ("sampling_id_b", [2])
      (by decide)⟩

/-! ## Claim C5 -/

/-- How many registry entries one exposed operator attribute contributes:
a list contributes its element count, anything else exactly one entry. -/
def opAttrCount : OpAttr → Nat
  | .many ls => ls.length
  | _ => 1

/-- Auxiliary: a build loop whose every step succeeds builds the layer list
in index order. -/
theorem buildRange_ok_of_const (build : Nat → Except PyErr ModuleSpec)
    (c : Ctor) (h : ∀ i, build i = .ok (c i)) :
    ∀ n, buildRange n build = .ok ((List.range n).map c) := by
  intro n
  induction n with
  | zero => simp [buildRange]
  | succ k ih =>
      simp only [buildRange]
      rw [ih, h k, List.range_succ, List.map_append]
      rfl

/-- Auxiliary: one `_save_sampling_and_search` step grows the sampler
registry by the module's contribution and the neighbour-finder registry
likewise, leaving the upsample registry alone. -/
theorem saveSamplingAndSearch_fields (s : SpatialOps) (m : ModuleSpec) :
    (saveSamplingAndSearch s m).sampler.length
        = s.sampler.length + opAttrCount m.sampler ∧
    (saveSamplingAndSearch s m).neighbourFinder.length
        = s.neighbourFinder.length + opAttrCount m.neighbourFinder ∧
    (saveSamplingAndSearch s m).upsampleOp = s.upsampleOp := by
  unfold saveSamplingAndSearch
  cases m.sampler <;> cases m.neighbourFinder <;>
    simp [opAttrCount]

/-- Auxiliary: folding `_save_sampling_and_search` over the built down
modules yields registries whose lengths are the sums of per-module
contributions. -/
theorem foldl_saveSamplingAndSearch_lengths (l : List ModuleSpec) :
    ∀ s : SpatialOps,
    (l.foldl saveSamplingAndSearch s).sampler.length
        = s.sampler.length + (l.map (fun m => opAttrCount m.sampler)).sum ∧
    (l.foldl saveSamplingAndSearch s).neighbourFinder.length
        = s.neighbourFinder.length
          + (l.map (fun m => opAttrCount m.neighbourFinder)).sum ∧
    (l.foldl saveSamplingAndSearch s).upsampleOp = s.upsampleOp := by
  induction l with
  | nil => intro s; simp
  | cons m t ih =>
      intro s
      rw [List.foldl_cons]
      obtain ⟨ihs, ihn, ihu⟩ := ih (saveSamplingAndSearch s m)
      obtain ⟨hs, hn, hu⟩ := saveSamplingAndSearch_fields s m
      refine ⟨?_, ?_, ?_⟩
      · rw [ihs, hs]; simp [List.map_cons, List.sum_cons]; omega
      · rw [ihn, hn]; simp [List.map_cons, List.sum_cons]; omega
      · rw [ihu, hu]

/-- Auxiliary: one `_save_upsample` step leaves the sampler and
neighbour-finder registries alone and grows the upsample registry by at most
one entry. -/
theorem saveUpsample_fields (s : SpatialOps) (m : ModuleSpec) :
    (saveUpsample s m).sampler = s.sampler ∧
    (saveUpsample s m).neighbourFinder = s.neighbourFinder ∧
    (saveUpsample s m).upsampleOp.length ≤ s.upsampleOp.length + 1 := by
  unfold saveUpsample
  cases h : m.upsampleOp with
  | none => simp
  | one o => simp
  | many ls => cases ls <;> simp

/-- Auxiliary: folding `_save_upsample` over the built up modules leaves the
down-side registries untouched and records at most one entry per up
module. -/
theorem foldl_saveUpsample_fields (l : List ModuleSpec) :
    ∀ s : SpatialOps,
    (l.foldl saveUpsample s).sampler = s.sampler ∧
    (l.foldl saveUpsample s).neighbourFinder = s.neighbourFinder ∧
    (l.foldl saveUpsample s).upsampleOp.length
        ≤ s.upsampleOp.length + l.length := by
  induction l with
  | nil => intro s; simp
  | cons m t ih =>
      intro s
      rw [List.foldl_cons]
      obtain ⟨ihs, ihn, ihu⟩ := ih (saveUpsample s m)
      obtain ⟨hs, hn, hu⟩ := saveUpsample_fields s m
      refine ⟨by rw [ihs, hs], by rw [ihn, hn], ?_⟩
      calc (t.foldl saveUpsample (saveUpsample s m)).upsampleOp.length
          ≤ (saveUpsample s m).upsampleOp.length + t.length := ihu
        _ ≤ s.upsampleOp.length + 1 + t.length := by omega
        _ = s.upsampleOp.length + (m :: t).length := by
              simp [List.length_cons]; omega

/-- Auxiliary: a non-list operator attribute contributes exactly one
registry entry. -/
theorem opAttrCount_eq_one_of_not_isList (a : OpAttr)
    (h : a.isList = false) : opAttrCount a = 1 := by
  cases a <;> simp [opAttrCount, OpAttr.isList] at h ⊢

/-- **C5 (amended).** For a single-modality compact configuration with `N`
down stages and `N` up stages (all names resolvable, `buildInners`
succeeding), construction succeeds and: the sampler and neighbour-finder
registries have length equal to the *sum of per-module contributions* (a
block exposing a list contributes one entry per element, any other block
one entry, `None` included); in particular the length is exactly `N` when no
down module exposes a list-valued operator attribute; and the
upsample-operator registry has length at most `N`, because an up module's
operator is appended only when present. -/
theorem C5_registry_lengths (opt : Opt) (o : DownConvOpt) (N : Nat)
    (lib : ModulesLib) (env : String → ModalityLibs) (c cu : Ctor)
    (u : UpConvOpt) (inners : List ModuleSpec)
    (hdc : opt.downConv = .compact o) (hnn : o.downConvNN = some N)
    (hmod : o.modalities = [])
    (hmain : lib.get o.moduleName = some c)
    (hup : opt.upConv = some u) (hNu : u.upConvNN = N)
    (hne : ¬ u.moduleName = "")
    (hupc : lib.get u.moduleName = some cu)
    (hin : buildInners opt lib = .ok inners) :
    ∃ mm, unwrappedInit opt lib env = .ok mm ∧
      mm.spatialOps.sampler.length
        = ((List.range N).map (fun i => opAttrCount (c i).sampler)).sum ∧
      mm.spatialOps.neighbourFinder.length
        = ((List.range N).map
            (fun i => opAttrCount (c i).neighbourFinder)).sum ∧
      mm.spatialOps.upsampleOp.length ≤ N ∧
      ((∀ i < N, (c i).sampler.isList = false) →
        mm.spatialOps.sampler.length = N) ∧
      ((∀ i < N, (c i).neighbourFinder.isList = false) →
        mm.spatialOps.neighbourFinder.length = N) := by
  have hfm : fetchModalities (.compact o) MODALITY_NAMES = [] := by
    simp [fetchModalities, hmod]
  have hgD : (Factory.base (mainFactory opt o lib)).getModule "DOWN"
      = some c := by
    simp only [Factory.getModule, BaseFactory.getModule]
    rw [if_neg (by decide : ¬ (pyUpper "DOWN" = "UP"))]
    exact hmain
  have hgU : (Factory.base (mainFactory opt o lib)).getModule "UP"
      = some cu := by
    simp only [Factory.getModule, BaseFactory.getModule]
    rw [if_pos (by decide : pyUpper "UP" = "UP")]
    simp only [mainFactory]
    rw [hup]
    simpa using hupc
  have hdowns : buildMainDowns (mainFactory opt o lib) N
      = .ok ((List.range N).map c) := by
    unfold buildMainDowns
    apply buildRange_ok_of_const
    intro i; unfold buildModule; rw [hgD]
  have hups : buildUps opt (mainFactory opt o lib)
      = .ok ((List.range N).map cu) := by
    unfold buildUps
    rw [hup]
    dsimp only
    rw [if_neg hne, hNu]
    apply buildRange_ok_of_const
    intro i; unfold buildModule; rw [hgU]
  have hinit : unwrappedInit opt lib env = .ok
      { modalities := [],
        saveSamplingId := o.saveSamplingId,
        innerModules := inners,
        downModules := ((List.range N).map c).map DownMod.conv,
        upModules := (List.range N).map cu,
        spatialOps := ((List.range N).map cu).foldl saveUpsample
          (((List.range N).map c).foldl saveSamplingAndSearch {}) } := by
    unfold unwrappedInit
    rw [hdc]
    simp only [hnn]
    rw [hfm]
    unfold initFromCompact
    rw [show buildModalityFactories o ([] : List String) env = .ok [] from
      rfl]
    rw [hin, hdowns]
    dsimp only
    rw [show buildDownFinal ((List.range N).map c) [] []
        = .ok (((List.range N).map c).map DownMod.conv) from by
      unfold buildDownFinal; simp]
    rw [hups]
  refine ⟨_, hinit, ?_, ?_, ?_, ?_, ?_⟩ <;>
    obtain ⟨hsU, hnU, huU⟩ := foldl_saveUpsample_fields
      ((List.range N).map cu)
      (((List.range N).map c).foldl saveSamplingAndSearch {}) <;>
    obtain ⟨hsS, hnS, huS⟩ := foldl_saveSamplingAndSearch_lengths
      ((List.range N).map c) {}
  · show (((List.range N).map cu).foldl saveUpsample
        (((List.range N).map c).foldl saveSamplingAndSearch {})).sampler.length
      = _
    rw [hsU, hsS]
    simp [List.map_map, Function.comp_def]
  · show (((List.range N).map cu).foldl saveUpsample
        (((List.range N).map c).foldl
          saveSamplingAndSearch {})).neighbourFinder.length = _
    rw [hnU, hnS]
    simp [List.map_map, Function.comp_def]
  · show (((List.range N).map cu).foldl saveUpsample
        (((List.range N).map c).foldl
          saveSamplingAndSearch {})).upsampleOp.length ≤ N
    rw [huS] at huU
    simpa using huU
  · intro hno
    show (((List.range N).map cu).foldl saveUpsample
        (((List.range N).map c).foldl saveSamplingAndSearch {})).sampler.length
      = N
    rw [hsU, hsS]
    have hone : ∀ i ∈ List.range N,
        opAttrCount (c i).sampler = (fun _ => 1) i := fun i hi =>
      opAttrCount_eq_one_of_not_isList _ (hno i (List.mem_range.mp hi))
    simp only [List.map_map, Function.comp_def]
    rw [List.map_congr_left hone]
    simp
  · intro hno
    show (((List.range N).map cu).foldl saveUpsample
        (((List.range N).map c).foldl
          saveSamplingAndSearch {})).neighbourFinder.length = N
    rw [hnU, hnS]
    have hone : ∀ i ∈ List.range N,
        opAttrCount (c i).neighbourFinder = (fun _ => 1) i := fun i hi =>
      opAttrCount_eq_one_of_not_isList _ (hno i (List.mem_range.mp hi))
    simp only [List.map_map, Function.comp_def]
    rw [List.map_congr_left hone]
    simp

/-- A single-modality compact config with one down stage whose module is the
composite `KPDualBlock` (exposing two-element operator lists) and one up
stage. -/
def fixOptDual : Opt :=
  { downConv := .compact
      { moduleName := "KPDualBlock", downConvNN := some 1,
        saveSamplingId := false, modalities := [] },
    upConv := some ⟨"FPModule", 1⟩,
    innermost := none }

/-- **C5 (counterexample).** A valid single-modality configuration with
`N = 1` down stage and `N = 1` up stage whose down block is a
`KPDualBlock`-style composite: construction succeeds, but the sampler and
neighbour-finder registries have length 2, not `N = 1` — each element of
the exposed operator lists is recorded as its own entry. -/
theorem C5_registry_length_counterexample :
    (unwrappedInit fixOptDual fixLib fixEnv).map
        (fun mm => mm.spatialOps.sampler.length) = .ok 2 ∧
    (unwrappedInit fixOptDual fixLib fixEnv).map
        (fun mm => mm.spatialOps.neighbourFinder.length) = .ok 2 ∧
    (2 : Nat) ≠ 1 :=
  ⟨rfl, rfl, by decide⟩

/-- Witness for the amended C5 statement at a concrete two-stage
single-modality configuration with singleton operator exposure. -/
theorem C5_registry_lengths_witness :
    (unwrappedInit fixOptSingle fixLib fixEnv).map
        (fun mm => mm.spatialOps.sampler.length) = .ok 2 ∧
    (unwrappedInit fixOptSingle fixLib fixEnv).map
        (fun mm => mm.spatialOps.neighbourFinder.length) = .ok 2 ∧
    (unwrappedInit fixOptSingle fixLib fixEnv).map
        (fun mm => decide (mm.spatialOps.upsampleOp.length ≤ 2))
      = .ok true := by
  obtain ⟨mm, hmm, hs, hn, hu, hsN, hnN⟩ :=
    C5_registry_lengths fixOptSingle
      { moduleName := "SimpleBlock", downConvNN := some 2,
        saveSamplingId := false, modalities := [] }
      2 fixLib fixEnv fixDownCtor fixUpCtor ⟨"FPModule", 2⟩
      [identityModule] rfl rfl rfl rfl rfl rfl (by decide) rfl rfl
  rw [hmm]
  refine ⟨?_, ?_, ?_⟩ <;> simp only [Except.map]
  · rw [hsN (fun i _ => rfl)]
  · rw [hnN (fun i _ => rfl)]
  · simp [hu]
